import Mathlib

/-!
Verification of the pypiper `PipelineManager` run-and-lock execution engine
(`pypiper/manager.py`) against its natural-language specification.

The Python code is shallowly embedded in Lean.  The filesystem is modelled as
a list of existing file paths (directories and file contents are not modelled;
none of the verified properties depend on them).  Interference by other
processes sharing the output folder is modelled by explicit environment
inputs consumed by `run`'s retry loop.  Floating point quantities (memory in
GB, elapsed seconds) are modelled as integers: only their ordering and `max`
aggregation matter to the verified properties.
-/

namespace Pypiper

/-! ## Python string helpers -/

/-- Fuel-driven core of Python `str.replace`: replace every non-overlapping
occurrence of `pat`, scanning left to right.  The fuel decreases by one per
examined position; `replaceAll` below supplies `s.length`, which always
suffices because every step consumes at least one character.  (`pat` is
always the nonempty literal `"lock."` or `"/"` in this development.) -/
def replaceAllF (pat rep : List Char) : Nat → List Char → List Char
  | _, [] => []
  | 0, s => s
  | f + 1, c :: rest =>
    if pat ≠ [] ∧ pat.isPrefixOf (c :: rest) then
      rep ++ replaceAllF pat rep f ((c :: rest).drop pat.length)
    else
      c :: replaceAllF pat rep f rest

/-- Python `str.replace pat rep` over a character list. -/
def replaceAll (pat rep s : List Char) : List Char :=
  replaceAllF pat rep s.length s

/-- Python `s.replace(pat, rep)` on `String`s. -/
def pyReplace (s pat rep : String) : String :=
  ⟨replaceAll pat.data rep.data s.data⟩

/-- `s.startswith(pre)`. -/
def pyStartsWith (s pre : String) : Bool := pre.data.isPrefixOf s.data

/-- `s.endswith(suf)`. -/
def pyEndsWith (s suf : String) : Bool := suf.data.isSuffixOf s.data

/-- `s[n:]`. -/
def pyDropStr (s : String) (n : Nat) : String := String.mk (s.data.drop n)

/-- `s[:n]`. -/
def pyTakeStr (s : String) (n : Nat) : String := String.mk (s.data.take n)

/-- `len(s)`. -/
def pyLen (s : String) : Nat := s.data.length

/-- `s.lower()` (ASCII). -/
def pyToLower (s : String) : String := String.mk (s.data.map Char.toLower)

/-- Split a character list at every occurrence of the separator character. -/
def splitOnCharAux (sep : Char) : List Char → List Char → List (List Char)
  | [], acc => [acc.reverse]
  | c :: rest, acc =>
    if c = sep then acc.reverse :: splitOnCharAux sep rest []
    else splitOnCharAux sep rest (c :: acc)

/-- Split a string at every occurrence of a separator character. -/
def pySplitChar (s : String) (sep : Char) : List String :=
  (splitOnCharAux sep s.data []).map String.mk

/-- Join strings with a separator. -/
def joinSep (sep : String) : List String → String
  | [] => ""
  | [x] => x
  | x :: xs => x ++ sep ++ joinSep sep xs

/-- First whitespace-delimited token of a string; models
`"".join(cmd).split()[0]` (splitting on spaces only; an all-blank command,
which raises `IndexError` in the source, yields `""` here). -/
def headToken (s : String) : String :=
  (((pySplitChar s ' ').filter (fun t => t ≠ "")).headD "")

/-- Membership of a path in the modelled filesystem (or of a string in any
string list). -/
def hasStr : List String → String → Bool
  | [], _ => false
  | p :: ps, q => if p = q then true else hasStr ps q

/-- `list.remove` / `List.erase`: drop the first occurrence, if any. -/
def eraseStr : List String → String → List String
  | [], _ => []
  | p :: ps, q => if p = q then ps else p :: eraseStr ps q

/-! ## POSIX path helpers (`os.path`) -/

/-- `os.path.isabs` for POSIX paths. -/
def os_isabs (p : String) : Bool := pyStartsWith p "/"

/-- Index of the last `/` in a character list, if any. -/
def lastSlashIdx : List Char → Option Nat
  | [] => none
  | c :: rest =>
    match lastSlashIdx rest with
    | some i => some (i + 1)
    | none => if c = '/' then some 0 else none

/-- `os.path.split`: split off the final path component.  The head keeps its
trailing slash only when it consists entirely of slashes (as in CPython). -/
def os_split (p : String) : String × String :=
  match lastSlashIdx p.data with
  | none => ("", p)
  | some i =>
    let headRaw := pyTakeStr p (i + 1)
    let tail := pyDropStr p (i + 1)
    let headStripped :=
      String.mk ((headRaw.data.reverse.dropWhile (fun c => c = '/')).reverse)
    (if headStripped = "" then headRaw else headStripped, tail)

/-- `os.path.join a b` (two-argument form, POSIX). -/
def os_join (a b : String) : String :=
  if os_isabs b then b
  else if a = "" then b
  else if pyEndsWith a "/" then a ++ b
  else a ++ "/" ++ b

/-! ## Functions from repository modules not under src/

`manager.py` imports `pipeline_filepath`, `make_lock_name`, `check_shell`,
`flag_name`, `translate_stage_name` and `CHECKPOINT_EXTENSION` from sibling
modules (`pypiper/pipeline.py`, `pypiper/utils.py`, `pypiper/stage.py`,
`pypiper/flags.py`) that are not part of the provided sources.  They are
modelled from the specification's descriptions. -/

/-- Modelled from the spec: `pipeline_filepath(pm, filename=...)` from the
missing `pypiper/pipeline.py`; per the spec, managed paths "resolve relative
to `outfolder`" (the manager stores `outfolder` with a trailing slash). -/
def pipeline_filepath (outfolder filename : String) : String :=
  os_join outfolder filename

/-- Modelled from the spec: `make_lock_name(target, outfolder)` from the
missing `pypiper/utils.py`; "base name derived from the target path by
replacing separators with a safe delimiter", with the output-folder prefix
removed so the lock lives directly in `outfolder`.  The delimiter itself is
not fixed by the spec; `"__"` is used here. -/
def make_lock_name (target outfolder : String) : String :=
  let rel :=
    if pyStartsWith target outfolder then pyDropStr target (pyLen outfolder)
    else target
  pyReplace rel "/" "__"

/-- Modelled from the spec: `check_shell(cmd)` from the missing
`pypiper/utils.py`; "inspect the command text for shell metacharacters
(`|`, `>`, `*`, `<`, etc.)". -/
def check_shell (cmd : String) : Bool :=
  cmd.data.any (fun c => ("|><*".data).contains c)

/-- Modelled from the spec: `flag_name(status)` from the missing
`pypiper/flags.py`; flag files are named `<pipeline>_<status>.flag`. -/
def flag_name (status : String) : String := status ++ ".flag"

/-- Modelled from the spec: `translate_stage_name` from the missing
`pypiper/stage.py`; "stage name with whitespace collapsed to a single
separator and lowercased" (separator `"_"` here). -/
def translate_stage_name (stage : String) : String :=
  joinSep "_" ((pySplitChar (pyToLower stage) ' ').filter (fun t => t ≠ ""))

/-- Modelled from the spec: `CHECKPOINT_EXTENSION` from the missing
`pypiper/stage.py`; checkpoint files end in `.checkpoint`. -/
def CHECKPOINT_EXTENSION : String := ".checkpoint"

/-! ## Status flags (`pypiper/flags.py`, not under src/; names per the spec) -/

def RUN_FLAG : String := "running"
def WAIT_FLAG : String := "waiting"
def PAUSE_FLAG : String := "paused"
def COMPLETE_FLAG : String := "completed"
def FAIL_FLAG : String := "failed"

/-! ## Errors and errno values -/

/-- Exceptions that escape the embedded functions.  `argErr` is the
`Exception` raised for a missing target/lock pair, `procErr` stands for the
`OSError("Subprocess returned nonzero result.")` / `CalledProcessError`
family, `osErr n` is an `OSError` with `errno = n`, and `fuelOut` marks
exhaustion of the loop fuel of the model (the source loop is unbounded). -/
inductive Exn
  | argErr
  | procErr
  | osErr (errno : Nat)
  | fuelOut
  deriving DecidableEq

def eEXIST : Nat := 17
def eNOENT : Nat := 2
def eACCES : Nat := 13

/-! ## Manager state -/

/-- One row of the profile TSV (`_report_profile` arguments).  The source
renders elapsed time via `str(datetime.timedelta(...))`; here elapsed seconds
are kept as an integer and rendered as a plain number, which preserves the
row's column structure. -/
structure ProfileRow where
  command : String
  lock_name : Option String
  elapsed : Int
  memory : Int
  deriving DecidableEq

/-- Entry of `self.procs` for a live child: leaf command name, container, and
the environment-determined elapsed time and memory that a later
`_terminate_running_subprocesses` would sample for it. -/
structure ProcEntry where
  proc_name : String
  container : Option String
  elapsed : Int
  mem : Int
  deriving DecidableEq

/-- Manager configuration fixed at construction (`PipelineManager.__init__`). -/
structure Config where
  name : String
  /-- `outfolder`, stored with a trailing slash as in the constructor. -/
  outfolder : String
  /-- `self.overwrite_locks` (recover mode). -/
  overwrite_locks : Bool
  force_follow : Bool
  overwrite_checkpoints : Bool
  manual_clean : Bool
  /-- `self.wait`. -/
  wait : Bool
  deriving DecidableEq

/-- Mutable manager state plus the modelled filesystem and event traces.
`fs` is the set of existing files; `spawned` records each command handed to
`subprocess.Popen` (in order); `followCalls` counts invocations of the
user-supplied follow-up callable; `killed` records pids passed to
`_kill_child_process`. -/
structure RState where
  fs : List String
  status : String
  locks : List String
  procs : List (Nat × ProcEntry)
  peak_memory : Int
  profile : List ProfileRow
  commands : List String
  spawned : List String
  followCalls : Nat
  killed : List Nat
  cleanup_list : List String
  cleanup_list_conditional : List String
  cleanup_script : List String
  deriving DecidableEq

/-! ## Filesystem primitives -/

/-- `_create_file`: create (or truncate) a file; never fails. -/
def create_file (fs : List String) (p : String) : List String :=
  if hasStr fs p then fs else fs ++ [p]

/-- `_create_file_racefree`: `os.open` with `O_CREAT | O_EXCL`; raises
`OSError` with `errno = EEXIST` when the file already exists. -/
def create_file_racefree (fs : List String) (p : String) :
    Except Exn (List String) :=
  if hasStr fs p then .error (.osErr eEXIST) else .ok (fs ++ [p])

/-- `os.remove`: raises `OSError` with `errno = ENOENT` when absent. -/
def os_remove (fs : List String) (p : String) : Except Exn (List String) :=
  if hasStr fs p then .ok (eraseStr fs p) else .error (.osErr eNOENT)

/-! ## Lock and recovery paths -/

/-- The module constant `LOCK_PREFIX = "lock."` of `manager.py`. -/
def LOCK_MARK : String := "lock."

/-- `PipelineManager._ensure_lock_prefix` (static): make sure the lock file
name starts with `lock.`. -/
def ensure_lock_marked (lock_name_base : String) : String :=
  if pyStartsWith lock_name_base LOCK_MARK then lock_name_base
  else LOCK_MARK ++ lock_name_base

/-- `PipelineManager._make_lock_path`: split off the file name, ensure the
`lock.` designation on the name only, rejoin, and resolve in `outfolder`. -/
def make_lock_path (cfg : Config) (lock_name_base : String) : String :=
  let bn := os_split lock_name_base
  let ln := ensure_lock_marked bn.2
  let ln := if bn.1 = "" then ln else os_join bn.1 ln
  pipeline_filepath cfg.outfolder ln

/-- `PipelineManager._recoverfile_from_lockfile`: resolve a bare lock name if
needed, then `lockfile.replace(LOCK_PREFIX, "recover." + LOCK_PREFIX)` —
note the source replaces EVERY occurrence of `lock.` in the whole path. -/
def recoverfile_from_lockfile (cfg : Config) (lockfile : String) : String :=
  let lf :=
    if os_isabs lockfile || pyStartsWith lockfile cfg.outfolder then lockfile
    else make_lock_path cfg lockfile
  pyReplace lf LOCK_MARK ("recover." ++ LOCK_MARK)

/-! ## Status flag store -/

/-- `PipelineManager._flag_file_path`. -/
def flag_file_path (cfg : Config) (status : String) : String :=
  pipeline_filepath cfg.outfolder (cfg.name ++ "_" ++ flag_name status)

/-- `PipelineManager.set_status_flag`: remove the previous flag file
(tolerating absence), update the in-memory status, create the new flag. -/
def set_status_flag (cfg : Config) (new : String) (st : RState) : RState :=
  let fs := eraseStr st.fs (flag_file_path cfg st.status)
  let fs := create_file fs (flag_file_path cfg new)
  { st with fs := fs, status := new }

/-- `PipelineManager._wait_for_lock`, called only when the lock file exists:
status goes to `waiting`, the process sleeps until another process removes
the lock (the removal is the environment's doing), then status returns to
`running`. -/
def wait_for_lock (cfg : Config) (lock_file : String) (st : RState) : RState :=
  let st := set_status_flag cfg WAIT_FLAG st
  let st := { st with fs := eraseStr st.fs lock_file }
  set_status_flag cfg RUN_FLAG st

/-! ## Cleanup registry -/

/-- `PipelineManager.clean_add`.  Globbing is modelled literally: a pattern
matches exactly the file with that name (wildcards and directories are not
modelled; no verified property depends on them). -/
def clean_add (cfg : Config) (pattern : String) (conditional manual : Bool)
    (st : RState) : RState :=
  let manual := manual || cfg.manual_clean
  if manual then
    if hasStr st.fs pattern then
      { st with cleanup_script := st.cleanup_script ++ ["rm " ++ pattern] }
    else st
  else if conditional then
    { st with cleanup_list_conditional := st.cleanup_list_conditional ++ [pattern] }
  else
    { st with
      cleanup_list := st.cleanup_list ++ [pattern],
      cleanup_list_conditional :=
        st.cleanup_list_conditional.filter (fun r => r ≠ pattern) }

/-- `PipelineManager._cleanup(dry_run=True)`: fold the unconditional cleanup
list into the conditional list and delete nothing.  On this path the source's
per-item script emission always fails (it tests `os.path.isfile(file)` where
`file` was only ever bound by the unconditional deletion loop, which the
dry-run emptied before it could run; the resulting exception is caught per
item), so no script lines are produced. -/
def cleanup_dry (st : RState) : RState :=
  if st.cleanup_list.isEmpty then st
  else
    { st with
      cleanup_list_conditional := st.cleanup_list_conditional ++ st.cleanup_list,
      cleanup_list := [] }

/-! ## Failure path -/

/-- `PipelineManager._terminate_running_subprocesses`: for each live child,
report a profile row (with lock name `None`) from the termination-time
samples, kill the child, and drop it from `procs`. -/
def terminate_subprocs (st : RState) : RState :=
  { st with
    profile := st.profile ++
      st.procs.map (fun q => ProfileRow.mk q.2.proc_name none q.2.elapsed q.2.mem),
    killed := st.killed ++ st.procs.map (fun q => q.1),
    procs := [] }

/-- The `dynamic_recover` loop of `fail_pipeline`: iterate over a snapshot of
`locks`, create each recovery file exclusively (an `OSError` from the
creation propagates at once, aborting the loop), and remove the lock from the
live set.  Returns the propagating error, if any. -/
def setRecFold (cfg : Config) : List String → RState → Option Exn × RState
  | [], st => (none, st)
  | l :: ls, st =>
    let rf := recoverfile_from_lockfile cfg l
    match create_file_racefree st.fs rf with
    | .error e => (some e, st)
    | .ok fs' =>
      setRecFold cfg ls { st with fs := fs', locks := eraseStr st.locks l }

/-- `PipelineManager.fail_pipeline`: terminate live children; when
`dynamic_recover` is set, write a recovery file for every held lock and clear
the lock set; produce the dry-run cleanup; set status to `failed` unless it
is already `failed` (an already-`completed` status is still overwritten — the
`completed` guard is commented out in the source); reraise `e`.  Returns the
exception that propagates together with the final state. -/
def fail_pipeline (cfg : Config) (e : Exn) (dynamic_recover : Bool)
    (st : RState) : Exn × RState :=
  let st := terminate_subprocs st
  match (if dynamic_recover then setRecFold cfg st.locks st else (none, st)) with
  | (some err, st) => (err, st)
  | (none, st) =>
    let st := cleanup_dry st
    let st := if st.status = FAIL_FLAG then st else set_status_flag cfg FAIL_FLAG st
    (e, st)

/-- `PipelineManager._triage_error`: on `nofail = false` fail the pipeline;
otherwise continue unless the pipeline already failed for other reasons. -/
def triage (cfg : Config) (e : Exn) (nofail : Bool) (st : RState) :
    Option Exn × RState :=
  if !nofail then
    let r := fail_pipeline cfg e false st
    (some r.1, r.2)
  else if st.status = FAIL_FLAG then (some e, st)
  else (none, st)

/-! ## Subprocess supervisor (`callprint`) -/

/-- The `shell` argument of `run`/`callprint`: `"guess"`, `True` or `False`. -/
inductive ShellArg
  | guess
  | sTrue
  | sFalse
  deriving DecidableEq

/-- Container wrapping in `callprint`: `cmd = "docker exec " + container + " " + cmd`. -/
def wrapCmd (container : Option String) (cmd : String) : String :=
  match container with
  | some c => "docker exec " ++ c ++ " " ++ cmd
  | none => cmd

/-- Shell-mode resolution in `callprint`. -/
def resolved_shell (sh : ShellArg) (cmd : String) : Bool :=
  match sh with
  | .guess => check_shell cmd
  | .sTrue => true
  | .sFalse => false

/-- The environment's answer for one `subprocess.Popen` attempt: either the
child spawns and eventually exits with return code `ret`, peak direct-mode
memory sample `mem` (GB) and elapsed time `elapsed`, or `Popen` itself raises
`OSError` (command not found). -/
inductive ProcResult
  | ok (pid : Nat) (ret : Int) (mem : Int) (elapsed : Int)
  | spawnFail
  deriving DecidableEq

/-- `PipelineManager._report_command`. -/
def report_command (cmd : String) (st : RState) : RState :=
  { st with commands := st.commands ++ [cmd] }

/-- `PipelineManager.callprint`: wrap for the container, report the command,
spawn, register the pid, optionally return immediately (`wait = False`), poll
sampling memory in direct-exec mode, report the profile row, unregister the
pid, and triage a nonzero exit.  Returns `(returncode, local_maxmem)` or the
propagating exception.  Note `run` never passes `lock_name`, so its default
`None` reaches `_report_profile`. -/
def callprint (cfg : Config) (cmdIn : String) (sh : ShellArg) (nofail : Bool)
    (container : Option String) (lock_name : Option String) (res : ProcResult)
    (st : RState) : Except Exn (Int × Int) × RState :=
  let cmd := wrapCmd container cmdIn
  let st := report_command cmd st
  let proc_name := headToken cmd
  let shellB := resolved_shell sh cmd
  match res with
  | .spawnFail =>
    match triage cfg Exn.procErr nofail st with
    | (some err, st) => (.error err, st)
    | (none, st) => (.ok (-1, -1), st)
  | .ok pid ret mem elapsed =>
    let st := { st with
      procs := st.procs ++ [(pid, ProcEntry.mk proc_name container elapsed mem)],
      spawned := st.spawned ++ [cmd] }
    if !cfg.wait then (.ok (0, -1), st)
    else
      let local_maxmem : Int := if shellB then -1 else max (-1) mem
      let st := { st with peak_memory := max st.peak_memory local_maxmem }
      let st := { st with
        profile := st.profile ++ [ProfileRow.mk proc_name lock_name elapsed local_maxmem] }
      let st := { st with procs := st.procs.filter (fun q => q.1 ≠ pid) }
      if ret ≠ 0 then
        match triage cfg Exn.procErr nofail st with
        | (some err, st) => (.error err, st)
        | (none, st) => (.ok (ret, local_maxmem), st)
      else (.ok (ret, local_maxmem), st)

/-- Rendering of a profile row by `_report_profile`: note the separators are
`"\t "`, `"\t"`, `"\t "` and `str(None)` renders as `"None"`. -/
def pyStrOpt : Option String → String
  | none => "None"
  | some s => s

def profileLine (r : ProfileRow) : String :=
  r.command ++ "\t " ++ pyStrOpt r.lock_name ++ "\t" ++
    toString r.elapsed ++ "\t " ++ toString r.memory

/-! ## Environment model for `run`'s retry loop -/

/-- A filesystem change made by some other process sharing the folder. -/
inductive FSOp
  | touch (p : String)
  | del (p : String)
  deriving DecidableEq

def applyOp (fs : List String) : FSOp → List String
  | .touch p => create_file fs p
  | .del p => fs.erase p

def applyOps (fs : List String) (ops : List FSOp) : List String :=
  ops.foldl applyOp fs

/-- Environment interference during one iteration of `run`'s retry loop:
`mid` happens between the lock-existence test and the exclusive create (the
race window); `fault` optionally injects an `OSError` with the given errno
into the exclusive create when the file does not already exist (permission or
I/O failure); `post` happens before the next iteration re-runs the tests. -/
structure EnvIter where
  mid : List FSOp := []
  fault : Option Nat := none
  post : List FSOp := []
  deriving DecidableEq

/-! ## Arguments of `run` -/

/-- `cmd`: a single string or an ordered list of command strings. -/
inductive CmdArg
  | single (c : String)
  | cmds (l : List String)
  deriving DecidableEq

/-- `target`: a string or a list of strings (or `None` via `Option`). -/
inductive TargetArg
  | tstr (s : String)
  | tlist (l : List String)
  deriving DecidableEq

/-- `follow`: absent, a non-callable value (warned about and skipped), or a
callable (abstracted to the event of being invoked). -/
inductive FollowArg
  | noFollow
  | notCallable
  | callable
  deriving DecidableEq

structure RunArgs where
  cmd : CmdArg
  target : Option TargetArg := none
  lock_name : Option String := none
  shell : ShellArg := .guess
  nofail : Bool := false
  clean : Bool := false
  follow : FollowArg := .noFollow
  container : Option String := none
  checkpoint : Option String := none
  checkpoint_filename : Option String := none
  overwrite_checkpoint : Bool := false
  deriving DecidableEq

/-- The `call_follow` closure built by `run`: a no-op unless `follow` is a
callable. -/
def call_follow : FollowArg → RState → RState
  | .callable, st => { st with followCalls := st.followCalls + 1 }
  | _, st => st

/-- Candidate checkpoint file names built at the top of `run`. -/
def check_names (a : RunArgs) : List String :=
  match a.checkpoint_filename, a.checkpoint with
  | some f, _ => [f]
  | none, some c =>
    [c ++ CHECKPOINT_EXTENSION, translate_stage_name c ++ CHECKPOINT_EXTENSION]
  | none, none => []

/-- Normalisation of the target: a list-valued target is collapsed to its
first element (`target = target[0]`; an empty list, which raises
`IndexError` in the source, yields `""` here). -/
def norm_target (a : RunArgs) : Option String :=
  match a.target with
  | none => none
  | some (.tstr s) => some s
  | some (.tlist l) => some (l.headD "")

/-- `lock_name = lock_name or make_lock_name(target, outfolder)` (Python
`or`: `None` and `""` both fall back to the derived name). -/
def eff_lock_name (cfg : Config) (a : RunArgs) : String :=
  match a.lock_name with
  | some s =>
    if s = "" then make_lock_name ((norm_target a).getD "") cfg.outfolder else s
  | none => make_lock_name ((norm_target a).getD "") cfg.outfolder

/-- The lock file path used by a `run` call. -/
def run_lock_path (cfg : Config) (a : RunArgs) : String :=
  make_lock_path cfg (eff_lock_name cfg a)

/-- The recovery file path used by a `run` call. -/
def run_recover_path (cfg : Config) (a : RunArgs) : String :=
  recoverfile_from_lockfile cfg (run_lock_path cfg a)

/-! ## The execute stage of `run` -/

/-- Default result when the environment under-supplies process results. -/
def dfltRes : ProcResult := .ok 0 0 0 0

/-- The command-list loop of `run`: each element goes through `callprint`
(with `lock_name` left at its default `None`), the return code aggregates by
`max` and the local memory by `max`, both from the values carried into the
loop. -/
def runCmdList (cfg : Config) (sh : ShellArg) (nofail : Bool)
    (container : Option String) :
    List String → List ProcResult → Int → Int → RState →
    Except Exn (Int × Int) × RState × List ProcResult
  | [], results, prc, lmm, st => (.ok (prc, lmm), st, results)
  | c :: cs, results, prc, lmm, st =>
    let r := results.headD dfltRes
    match callprint cfg c sh nofail container none r st with
    | (.error e, st) => (.error e, st, results.tail)
    | (.ok rm, st) =>
      runCmdList cfg sh nofail container cs results.tail
        (max prc rm.1) (max lmm rm.2) st

/-- The post-acquisition part of one loop iteration of `run`: execute the
command(s), optionally register the target for cleanup, run the follow-up,
remove the lock file (`os.remove`, which raises if the file is absent) and
drop it from `locks`, then return the (aggregated) return code. -/
def runExec (cfg : Config) (a : RunArgs) (targetN : Option String)
    (lock_file : String) (prc lmm : Int) (results : List ProcResult)
    (st : RState) : Except Exn Int × RState :=
  let step : Except Exn (Int × Int) × RState × List ProcResult :=
    match a.cmd with
    | .cmds l => runCmdList cfg a.shell a.nofail a.container l results prc lmm st
    | .single c =>
      let r := results.headD dfltRes
      match callprint cfg c a.shell a.nofail a.container none r st with
      | (.error e, st) => (.error e, st, results.tail)
      | (.ok rm, st) => (.ok rm, st, results.tail)
  match step with
  | (.error e, st, _) => (.error e, st)
  | (.ok rm, st, _) =>
    let st :=
      if targetN.isSome && a.clean then clean_add cfg (targetN.getD "") false false st
      else st
    let st := call_follow a.follow st
    match os_remove st.fs lock_file with
    | .error e => (.error e, st)
    | .ok fs =>
      (.ok rm.1, { st with fs := fs, locks := eraseStr st.locks lock_file })

/-! ## The retry loop of `run` -/

/-- Outcome of the lock-acquisition block of one loop iteration: either the
iteration ran to a result, or the exclusive create hit `EEXIST` and the loop
must start over with the given state. -/
inductive AcqOut
  | done (r : Except Exn Int × RState)
  | again (st : RState)

/-- Lock acquisition and execution: append the lock to `locks` (before any
creation attempt!), create the lock file — non-exclusively in
overwrite/recover mode, exclusively otherwise (an `EEXIST` failure restarts
the loop *without* removing the fresh `locks` entry; an `OSError` with any
other errno is silently swallowed and execution proceeds although no lock
file was created) — then run the execute stage.  On `EEXIST`, `env.post` is
applied before the next iteration re-runs the tests. -/
def runAcquire (cfg : Config) (a : RunArgs) (targetN : Option String)
    (lock_file : String) (recover_mode : Bool) (prc lmm : Int) (env : EnvIter)
    (results : List ProcResult) (st : RState) : AcqOut :=
  let st := { st with locks := st.locks ++ [lock_file] }
  if cfg.overwrite_locks || recover_mode then
    .done (runExec cfg a targetN lock_file prc lmm results
      { st with fs := create_file st.fs lock_file })
  else
    let st := { st with fs := applyOps st.fs env.mid }
    if hasStr st.fs lock_file then
      -- exclusive create lost the race: EEXIST, loop again.
      .again { st with fs := applyOps st.fs env.post }
    else
      match env.fault with
      | some errno =>
        if errno = eEXIST then .again { st with fs := applyOps st.fs env.post }
        else .done (runExec cfg a targetN lock_file prc lmm results st)
      | none =>
        .done (runExec cfg a targetN lock_file prc lmm results
          { st with fs := st.fs ++ [lock_file] })

/-- One fuel unit per loop iteration (the source loop is unbounded; in
practice at most two iterations run).  `recover_mode`, `process_return_code`
and `local_maxmem` are the loop-carried locals of the source. -/
def runLoop (cfg : Config) (a : RunArgs) (targetN : Option String)
    (lock_file recover_file : String) :
    Nat → Bool → Int → Int → List EnvIter → List ProcResult → RState →
    Except Exn Int × RState
  | 0, _, _, _, _, _, st => (.error .fuelOut, st)
  | fuel + 1, recover_mode, prc, lmm, envs, results, st =>
    let env := envs.headD {}
    let envs' := envs.tail
    -- Base case: target exists and no lock file; skip, maybe force the follow.
    if targetN.isSome && hasStr st.fs (targetN.getD "") &&
        !(hasStr st.fs lock_file) then
      (.ok prc, if cfg.force_follow then call_follow a.follow st else st)
    else
      -- Scenario 1: lock file exists.
      if hasStr st.fs lock_file && !cfg.overwrite_locks then
        if hasStr st.fs recover_file then
          -- dynamic recovery: consume the recovery file, set recover_mode.
          match runAcquire cfg a targetN lock_file true prc lmm env results
              { st with fs := eraseStr st.fs recover_file } with
          | .done r => r
          | .again st =>
            runLoop cfg a targetN lock_file recover_file fuel true prc lmm
              envs' results st
        else
          -- wait for the lock, then loop again.
          let st := wait_for_lock cfg lock_file st
          runLoop cfg a targetN lock_file recover_file fuel recover_mode prc lmm
            envs' results { st with fs := applyOps st.fs env.post }
      else
        match runAcquire cfg a targetN lock_file recover_mode prc lmm env
            results st with
        | .done r => r
        | .again st =>
          runLoop cfg a targetN lock_file recover_file fuel recover_mode prc lmm
            envs' results st

/-- First path of the list that exists on the filesystem (the checkpoint
search loop of `run` stops at the first hit). -/
def firstExisting (fs : List String) : List String → Option String
  | [] => none
  | p :: ps => if hasStr fs p then some p else firstExisting fs ps

/-- `PipelineManager.run`: precondition check, checkpoint short-circuit,
target normalisation, lock-path derivation, then the retry loop. -/
def run (cfg : Config) (a : RunArgs) (fuel : Nat) (envs : List EnvIter)
    (results : List ProcResult) (st : RState) : Except Exn Int × RState :=
  if a.target.isNone && a.lock_name.isNone then
    let r := fail_pipeline cfg .argErr false st
    (.error r.1, r.2)
  else
    match firstExisting st.fs
        ((check_names a).map (pipeline_filepath cfg.outfolder)) with
    | some _ =>
      if cfg.overwrite_checkpoints || a.overwrite_checkpoint then
        runMain cfg a fuel envs results st
      else (.ok 0, st)
    | none => runMain cfg a fuel envs results st
  where
    runMain (cfg : Config) (a : RunArgs) (fuel : Nat) (envs : List EnvIter)
        (results : List ProcResult) (st : RState) : Except Exn Int × RState :=
      runLoop cfg a (norm_target a) (run_lock_path cfg a)
        (run_recover_path cfg a) fuel false 0 0 envs results st

/-! ## Memory sampler (`_memory_usage`, direct-process branch)

The containerised branch shells out to `docker stats` and is not needed by
the verified properties; the direct branch below reads `/proc/<pid>/status`.
The file, when present, is modelled as the list of pre-split lines
`(parts[0], int(parts[1]))`; `parts[0][2:-1].lower()` selects the `peak`,
`rss` and `hwm` keys. -/

inductive MemCat
  | peak
  | rss
  | hwm
  deriving DecidableEq

structure MemRec where
  peak : Int := 0
  rss : Int := 0
  hwm : Int := 0
  deriving DecidableEq

def vmKey (s : String) : String :=
  let t := pyDropStr s 2
  pyToLower (pyTakeStr t (pyLen t - 1))

def memLineFold (r : MemRec) (kv : String × Int) : MemRec :=
  let k := vmKey kv.1
  if k = "peak" then { r with peak := kv.2 }
  else if k = "rss" then { r with rss := kv.2 }
  else if k = "hwm" then { r with hwm := kv.2 }
  else r

/-- `PipelineManager._memory_usage` without a container: `open` the status
file — there is a `try/finally` here but NO `except`, so a missing file makes
`open` raise straight to the caller — then fold the lines into the result
dictionary and return the requested category. -/
def memory_usage_direct (statusLines : Option (List (String × Int)))
    (category : MemCat) : Except Exn Int :=
  match statusLines with
  | none => .error (.osErr eNOENT)
  | some lines =>
    let r := lines.foldl memLineFold {}
    .ok (match category with
      | .peak => r.peak
      | .rss => r.rss
      | .hwm => r.hwm)

/-! ## Substring occurrence (for reasoning about `str.replace`) -/

/-- Whether `pat` occurs as a contiguous sublist of `s`. -/
def hasOcc (pat : List Char) : List Char → Bool
  | [] => pat.isPrefixOf []
  | c :: rest => pat.isPrefixOf (c :: rest) || hasOcc pat rest

/-! ## Concrete instances used by witnesses and counterexamples -/

/-- A plain manager configuration: pipeline `pipe`, output folder `/o/`,
no recover mode, no forced follow-ups, synchronous waiting. -/
def exCfg : Config :=
  ⟨"pipe", "/o/", false, false, false, false, true⟩

/-- `exCfg` with `force_follow` enabled. -/
def exCfgFF : Config :=
  ⟨"pipe", "/o/", false, true, false, false, true⟩

/-- A configuration whose output folder itself contains the substring
`lock.` — a perfectly legal folder name. -/
def exCfgLockDir : Config :=
  ⟨"pipe", "/data/lock.dir/", false, false, false, false, true⟩

/-- A freshly started manager state: empty folder, status `running`. -/
def exSt : RState :=
  ⟨[], "running", [], [], 0, [], [], [], 0, [], [], [], []⟩

/-- Tab-separated columns of a rendered row. -/
def tabColumns (s : String) : List String := pySplitChar s '\t'

/-! Spec-side helpers used to state the command-list aggregation claim.
They package environment answers in which every `Popen` succeeds:
`rs` lists `(pid, returncode, memory, elapsed)` per command. -/

def okResults (rs : List (Nat × Int × Int × Int)) : List ProcResult :=
  rs.map (fun q => .ok q.1 q.2.1 q.2.2.1 q.2.2.2)

/-- The per-command return codes of an `okResults` environment. -/
def retCodes (rs : List (Nat × Int × Int × Int)) : List Int :=
  rs.map (fun q => q.2.1)

/-- The per-command `local_maxmem` values `callprint` computes: `-1` in shell
mode, otherwise the sampled memory (floored at the initial `-1`). -/
def sampledMems (sh : ShellArg) (container : Option String)
    (cmds : List String) (rs : List (Nat × Int × Int × Int)) : List Int :=
  (cmds.zip rs).map (fun q =>
    if resolved_shell sh (wrapCmd container q.1) then -1 else max (-1) q.2.2.2.1)

/-! Concrete `run` calls examined by the witnesses and counterexamples. -/

/-- A call producing target `t` with a callable follow-up. -/
def exA1 : RunArgs :=
  { cmd := .single "x", target := some (.tstr "t"), follow := .callable }

/-- A state in which the target `t` already exists. -/
def exSt1 : RState := { exSt with fs := ["t"] }

/-- A call guarded by the checkpoint file `c.checkpoint`. -/
def exA2 : RunArgs :=
  { cmd := .single "x", target := some (.tstr "t"),
    checkpoint_filename := some "c.checkpoint" }

/-- A state in which that checkpoint file exists. -/
def exStCk : RState := { exSt with fs := ["/o/c.checkpoint"] }

/-- The `run` call of the lock-race scenario. -/
def exA4 : RunArgs := { cmd := .single "echo hi", target := some (.tstr "t") }

/-- Race environment: another process creates `lock.t` between this
process's lock-existence test and its exclusive create, then finishes,
removing the lock and producing the target `t`. -/
def exEnv4 : List EnvIter :=
  [⟨[.touch "/o/lock.t"], none, [.del "/o/lock.t", .touch "t"]⟩]

/-- The raced `run` call, evaluated. -/
def exOut4 : Except Exn Int × RState :=
  run exCfg exA4 2 exEnv4 [.ok 5 0 0 0] exSt

/-- A plain successful `run` call (child pid 7, exit 0, 3 GB peak, 5 s). -/
def exOut8 : Except Exn Int × RState :=
  run exCfg exA4 1 [{}] [.ok 7 0 3 5] exSt

/-- The profile row that call produces. -/
def exRow8 : ProfileRow := ⟨"echo", none, 5, 3⟩

/-- A manager that completed and still holds a (stale) lock entry. -/
def exStC3 : RState :=
  ⟨["/o/pipe_completed.flag"], "completed", ["/o/lock.t"], [], 0, [], [], [],
    0, [], [], [], []⟩

/-- A running manager holding one lock. -/
def exStC3w : RState := { exSt with locks := ["/o/lock.t"] }

/-- A targetless nofail call with a command list whose only element fails to
spawn (`Popen` raises: command not found). -/
def exA7l : RunArgs :=
  { cmd := .cmds ["badcmd"], lock_name := some "l", nofail := true }

/-- The same call with the command passed as a single string. -/
def exA7s : RunArgs :=
  { cmd := .single "badcmd", lock_name := some "l", nofail := true }

/-- A targetless nofail call with two commands. -/
def exA7w : RunArgs :=
  { cmd := .cmds ["x", "y"], lock_name := some "l", nofail := true }

/-- A plain targeted call. -/
def exA10 : RunArgs := { cmd := .single "x", target := some (.tstr "t") }

/-- A call providing neither target nor lock name. -/
def exA6 : RunArgs := { cmd := .single "x" }

/-! ## Small lemmas about the filesystem primitives -/

theorem hasStr_append (xs ys : List String) (q : String) :
    hasStr (xs ++ ys) q = (hasStr xs q || hasStr ys q) := by
  induction xs with
  | nil => simp [hasStr]
  | cons p ps ih =>
    simp only [List.cons_append, hasStr]
    by_cases h : p = q
    · simp [h]
    · simp [h, ih]

theorem hasStr_append_self (xs : List String) (p : String) :
    hasStr (xs ++ [p]) p = true := by
  rw [hasStr_append]
  simp [hasStr]

theorem hasStr_eraseStr_ne (q p : String) (hne : p ≠ q) :
    ∀ fs : List String, hasStr (eraseStr fs q) p = hasStr fs p := by
  intro fs
  induction fs with
  | nil => rfl
  | cons x xs ih =>
    simp only [eraseStr]
    by_cases hx : x = q
    · rw [if_pos hx]
      simp only [hasStr]
      rw [if_neg (by rw [hx]; exact fun h => hne h.symm)]
    · rw [if_neg hx]
      simp only [hasStr]
      by_cases hxp : x = p
      · simp [hxp]
      · simp [hxp, ih]

theorem hasStr_create_file (fs : List String) (q p : String)
    (h : hasStr fs p = true) : hasStr (create_file fs q) p = true := by
  unfold create_file
  split
  · exact h
  · rw [hasStr_append, h]
    rfl

theorem os_remove_absent (fs : List String) (p : String)
    (h : hasStr fs p = false) : os_remove fs p = .error (.osErr eNOENT) := by
  unfold os_remove
  rw [if_neg (by simp [h])]

theorem os_remove_present (fs : List String) (p : String)
    (h : hasStr fs p = true) : os_remove fs p = .ok (eraseStr fs p) := by
  unfold os_remove
  rw [if_pos h]

theorem eraseStr_cons_self (x : String) (xs : List String) :
    eraseStr (x :: xs) x = xs := by
  simp [eraseStr]

theorem firstExisting_eq_none (fs : List String) :
    ∀ l : List String, firstExisting fs l = none →
      ∀ p ∈ l, hasStr fs p = false := by
  intro l
  induction l with
  | nil => simp
  | cons x xs ih =>
    intro h p hp
    by_cases hx : hasStr fs x = true
    · simp [firstExisting, hx] at h
    · rcases List.mem_cons.mp hp with hp | hp
      · subst hp
        simpa using hx
      · exact ih (by simpa [firstExisting, hx] using h) p hp

theorem applyOps_nil (fs : List String) : applyOps fs [] = fs := rfl

/-! ## Frame lemmas for `clean_add` and `call_follow` -/

theorem clean_add_fs (cfg : Config) (p : String) (c m : Bool) (st : RState) :
    (clean_add cfg p c m st).fs = st.fs := by
  simp only [clean_add]
  repeat' split
  all_goals rfl

theorem clean_add_spawned (cfg : Config) (p : String) (c m : Bool) (st : RState) :
    (clean_add cfg p c m st).spawned = st.spawned := by
  simp only [clean_add]
  repeat' split
  all_goals rfl

theorem call_follow_fs (f : FollowArg) (st : RState) :
    (call_follow f st).fs = st.fs := by
  cases f <;> rfl

theorem call_follow_spawned (f : FollowArg) (st : RState) :
    (call_follow f st).spawned = st.spawned := by
  cases f <;> rfl

theorem call_follow_peak (f : FollowArg) (st : RState) :
    (call_follow f st).peak_memory = st.peak_memory := by
  cases f <;> rfl

/-! ## Lemmas about `replaceAll` -/

/-- A string free of occurrences of the pattern is left unchanged (for any
amount of fuel). -/
theorem replaceAllF_of_not_hasOcc (pat rep : List Char) :
    ∀ (f : Nat) (s : List Char), hasOcc pat s = false →
      replaceAllF pat rep f s = s := by
  intro f
  induction f with
  | zero =>
    intro s _
    cases s <;> rfl
  | succ f ih =>
    intro s h
    cases s with
    | nil => rfl
    | cons c rest =>
      simp only [hasOcc, Bool.or_eq_false_iff] at h
      simp only [replaceAllF]
      rw [if_neg (by simp [h.1])]
      rw [ih rest h.2]

/-- A string free of occurrences of the pattern is left unchanged. -/
theorem replaceAll_of_not_hasOcc (pat rep : List Char) (s : List Char)
    (h : hasOcc pat s = false) : replaceAll pat rep s = s :=
  replaceAllF_of_not_hasOcc pat rep s.length s h

/-- With enough fuel, the fuel amount does not matter. -/
theorem replaceAllF_fuel_irrel (pat rep : List Char) :
    ∀ (f₁ : Nat) (s : List Char) (f₂ : Nat), s.length ≤ f₁ → s.length ≤ f₂ →
      replaceAllF pat rep f₁ s = replaceAllF pat rep f₂ s := by
  intro f₁
  induction f₁ with
  | zero =>
    intro s f₂ h1 _
    have hs : s = [] := List.length_eq_zero.mp (Nat.le_zero.mp h1)
    subst hs
    cases f₂ <;> rfl
  | succ f ih =>
    intro s f₂ h1 h2
    cases s with
    | nil => cases f₂ <;> rfl
    | cons c rest =>
      cases f₂ with
      | zero => simp at h2
      | succ g =>
        simp only [replaceAllF]
        by_cases hc : pat ≠ [] ∧ pat.isPrefixOf (c :: rest) = true
        · rw [if_pos hc, if_pos hc]
          congr 1
          have hplen : 1 ≤ pat.length := by
            cases hpv : pat with
            | nil => exact absurd hpv hc.1
            | cons _ _ => simp
          apply ih
          · simp only [List.length_drop, List.length_cons] at *
            omega
          · simp only [List.length_drop, List.length_cons] at *
            omega
        · rw [if_neg hc, if_neg hc]
          congr 1
          apply ih
          · simp only [List.length_cons] at h1
            omega
          · simp only [List.length_cons] at h2
            omega

/-- With enough fuel, a scan over `d ++ pat ++ r` in which no occurrence of
`pat` starts inside `d` walks over `d`, replaces the explicit occurrence, and
continues on `r` with fuel to spare. -/
theorem replaceAllF_boundary (pat rep : List Char) (hpat : pat ≠ []) :
    ∀ (d r : List Char) (f : Nat),
      (d ++ pat ++ r).length ≤ f →
      (∀ i, i < d.length → ¬ pat.isPrefixOf ((d ++ pat ++ r).drop i) = true) →
      ∃ f', r.length ≤ f' ∧
        replaceAllF pat rep f (d ++ pat ++ r) =
          d ++ rep ++ replaceAllF pat rep f' r := by
  intro d
  induction d with
  | nil =>
    intro r f hf _
    match hp : pat, hpat, hf with
    | p :: ps, _, hf =>
      cases f with
      | zero => simp at hf
      | succ f =>
        refine ⟨f, ?_, ?_⟩
        · simp only [List.nil_append, List.length_append, List.length_cons] at hf
          omega
        · simp only [List.nil_append]
          rw [show (p :: ps) ++ r = p :: (ps ++ r) from rfl]
          simp only [replaceAllF]
          rw [if_pos ⟨by simp, by
            rw [show p :: (ps ++ r) = (p :: ps) ++ r from rfl]
            simp [List.isPrefixOf_iff_prefix, List.prefix_append]⟩]
          congr 2
          simp only [List.length_cons, List.drop_succ_cons]
          exact List.drop_left ps r
  | cons c d' ih =>
    intro r f hf hd
    have h0 : ¬ pat.isPrefixOf ((c :: d' ++ pat ++ r)) = true := by
      have := hd 0 (by simp)
      simpa using this
    cases f with
    | zero => simp at hf
    | succ f =>
      obtain ⟨f', hlen, heq⟩ := ih r f
        (by
          simp only [List.cons_append, List.length_cons] at hf
          simpa using Nat.le_of_succ_le_succ hf)
        (by
          intro i hi
          have := hd (i + 1) (by simpa using Nat.succ_lt_succ hi)
          simpa using this)
      refine ⟨f', hlen, ?_⟩
      simp only [List.cons_append]
      simp only [replaceAllF]
      rw [if_neg (by
        intro hcon
        exact h0 (by simpa using hcon.2))]
      rw [heq]

/-- Replacing across an occurrence boundary: when no occurrence of `pat`
starts inside the prefix `d`, the scan reaches the explicit occurrence,
replaces it, and continues on `r`. -/
theorem replaceAll_boundary (pat rep : List Char) (hpat : pat ≠ [])
    (d r : List Char)
    (hd : ∀ i, i < d.length → ¬ pat.isPrefixOf ((d ++ pat ++ r).drop i) = true) :
    replaceAll pat rep (d ++ pat ++ r) = d ++ rep ++ replaceAll pat rep r := by
  obtain ⟨f', hlen, heq⟩ :=
    replaceAllF_boundary pat rep hpat d r (d ++ pat ++ r).length le_rfl hd
  rw [replaceAll, heq, replaceAll]
  congr 1
  exact replaceAllF_fuel_irrel pat rep f' r r.length hlen le_rfl |>.symm ▸ rfl

/-! ## Lemmas about the `dynamic_recover` loop of `fail_pipeline` -/

/-- `setRecFold` only ever adds files. -/
theorem setRecFold_fs_mono (cfg : Config) :
    ∀ (ls : List String) (st : RState) (p : String), hasStr st.fs p = true →
      hasStr (setRecFold cfg ls st).2.fs p = true := by
  intro ls
  induction ls with
  | nil => intro st p h; exact h
  | cons l ls ih =>
    intro st p h
    simp only [setRecFold]
    cases hc : create_file_racefree st.fs (recoverfile_from_lockfile cfg l) with
    | error e => exact h
    | ok fs' =>
      apply ih
      have : fs' = st.fs ++ [recoverfile_from_lockfile cfg l] := by
        unfold create_file_racefree at hc
        split at hc
        · exact absurd hc (by simp)
        · simpa using hc.symm
      simp only [this, hasStr_append, h]
      rfl

/-- When the recovery paths of the held locks are distinct and fresh, the
`dynamic_recover` loop creates every recovery file, empties the lock set, and
raises nothing; all other state components are untouched. -/
theorem setRecFold_spec (cfg : Config) :
    ∀ (ls : List String) (st : RState),
      st.locks = ls →
      ((ls.map (recoverfile_from_lockfile cfg)).Nodup) →
      (∀ l ∈ ls, hasStr st.fs (recoverfile_from_lockfile cfg l) = false) →
      (setRecFold cfg ls st).1 = none ∧
      (setRecFold cfg ls st).2.locks = [] ∧
      (∀ l ∈ ls, hasStr (setRecFold cfg ls st).2.fs
        (recoverfile_from_lockfile cfg l) = true) ∧
      (setRecFold cfg ls st).2.procs = st.procs ∧
      (setRecFold cfg ls st).2.status = st.status ∧
      (setRecFold cfg ls st).2.cleanup_list = st.cleanup_list ∧
      (setRecFold cfg ls st).2.cleanup_list_conditional =
        st.cleanup_list_conditional := by
  intro ls
  induction ls with
  | nil =>
    intro st hlocks _ _
    refine ⟨rfl, ?_, by simp, rfl, rfl, rfl, rfl⟩
    simpa [setRecFold] using hlocks
  | cons l ls ih =>
    intro st hlocks hnd hfresh
    have hfr : hasStr st.fs (recoverfile_from_lockfile cfg l) = false :=
      hfresh l (by simp)
    have hcreate : create_file_racefree st.fs (recoverfile_from_lockfile cfg l) =
        .ok (st.fs ++ [recoverfile_from_lockfile cfg l]) := by
      unfold create_file_racefree
      rw [if_neg (by simp [hfr])]
    have herase : eraseStr st.locks l = ls := by
      rw [hlocks]; exact eraseStr_cons_self l ls
    rw [List.map_cons] at hnd
    have hnd' : ((ls.map (recoverfile_from_lockfile cfg)).Nodup) :=
      (List.nodup_cons.mp hnd).2
    have hnotin : recoverfile_from_lockfile cfg l ∉
        ls.map (recoverfile_from_lockfile cfg) :=
      (List.nodup_cons.mp hnd).1
    set st2 : RState :=
      { st with fs := st.fs ++ [recoverfile_from_lockfile cfg l],
                locks := eraseStr st.locks l } with hst2
    have hrec : setRecFold cfg (l :: ls) st = setRecFold cfg ls st2 := by
      simp only [setRecFold, hcreate]
    have hfresh2 : ∀ x ∈ ls, hasStr st2.fs (recoverfile_from_lockfile cfg x) = false := by
      intro x hx
      have hne : recoverfile_from_lockfile cfg x ≠ recoverfile_from_lockfile cfg l := by
        intro hcon
        exact hnotin (hcon ▸ List.mem_map_of_mem (recoverfile_from_lockfile cfg) hx)
      have hx0 : hasStr st.fs (recoverfile_from_lockfile cfg x) = false :=
        hfresh x (by simp [hx])
      simp only [hst2, hasStr_append, hx0, Bool.false_or]
      simp only [hasStr]
      rw [if_neg (fun h => hne h.symm)]
    obtain ⟨ih1, ih2, ih3, ih4, ih5, ih6, ih7⟩ :=
      ih st2 (by simp [hst2, herase]) hnd' hfresh2
    refine ⟨by rw [hrec]; exact ih1, by rw [hrec]; exact ih2, ?_,
      by rw [hrec]; exact ih4, by rw [hrec]; exact ih5,
      by rw [hrec]; exact ih6, by rw [hrec]; exact ih7⟩
    intro x hx
    rw [hrec]
    rcases List.mem_cons.mp hx with hx | hx
    · subst hx
      apply setRecFold_fs_mono
      simp [hst2, hasStr_append_self]
    · exact ih3 x hx

/-! ## Characterisation of `callprint` on a spawned child -/

/-- `callprint` with `nofail = True`, synchronous waiting, and a pipeline
that has not already failed: the child is spawned and reaped, one profile row
is appended, the pid is registered and unregistered, the peak memory is
raised, and `(returncode, local_maxmem)` is returned — for any exit code
(nonzero exits are triaged and continue under `nofail`). -/
theorem callprint_ok_spec (cfg : Config) (c : String) (sh : ShellArg)
    (container lock_name : Option String) (pid : Nat) (ret mem el : Int)
    (st : RState) (hwait : cfg.wait = true) (hst : ¬ st.status = FAIL_FLAG) :
    callprint cfg c sh true container lock_name (.ok pid ret mem el) st =
      (.ok (ret,
        if resolved_shell sh (wrapCmd container c) then -1 else max (-1) mem),
       { st with
         commands := st.commands ++ [wrapCmd container c],
         procs := (st.procs ++
           [(pid, ProcEntry.mk (headToken (wrapCmd container c)) container el
             mem)]).filter (fun q => q.1 ≠ pid),
         spawned := st.spawned ++ [wrapCmd container c],
         peak_memory := max st.peak_memory
           (if resolved_shell sh (wrapCmd container c) then -1 else max (-1) mem),
         profile := st.profile ++
           [ProfileRow.mk (headToken (wrapCmd container c)) lock_name el
             (if resolved_shell sh (wrapCmd container c) then -1
              else max (-1) mem)] }) := by
  simp only [callprint, report_command, hwait, Bool.not_true, Bool.false_eq_true,
    if_false]
  by_cases hr : ret = 0
  · rw [if_neg (by simp [hr])]
  · rw [if_pos hr]
    simp only [triage, Bool.not_true, Bool.false_eq_true, if_false]
    rw [if_neg hst]

/-- `callprint` on a child that exits 0 (any `nofail`): spawn, reap, profile,
return `(0, local_maxmem)`. -/
theorem callprint_zero_spec (cfg : Config) (c : String) (sh : ShellArg)
    (nofail : Bool) (container lock_name : Option String) (pid : Nat)
    (mem el : Int) (st : RState) (hwait : cfg.wait = true) :
    callprint cfg c sh nofail container lock_name (.ok pid 0 mem el) st =
      (.ok (0,
        if resolved_shell sh (wrapCmd container c) then -1 else max (-1) mem),
       { st with
         commands := st.commands ++ [wrapCmd container c],
         procs := (st.procs ++
           [(pid, ProcEntry.mk (headToken (wrapCmd container c)) container el
             mem)]).filter (fun q => q.1 ≠ pid),
         spawned := st.spawned ++ [wrapCmd container c],
         peak_memory := max st.peak_memory
           (if resolved_shell sh (wrapCmd container c) then -1 else max (-1) mem),
         profile := st.profile ++
           [ProfileRow.mk (headToken (wrapCmd container c)) lock_name el
             (if resolved_shell sh (wrapCmd container c) then -1
              else max (-1) mem)] }) := by
  simp only [callprint, report_command, hwait, Bool.not_true, Bool.false_eq_true,
    if_false]
  rw [if_neg (by simp)]

/-! ## Characterisation of the command-list loop under `nofail` -/

theorem runCmdList_ok_spec (cfg : Config) (sh : ShellArg)
    (container : Option String) (hwait : cfg.wait = true) :
    ∀ (cmds : List String) (rs : List (Nat × Int × Int × Int)) (prc lmm : Int)
      (st : RState), rs.length = cmds.length → ¬ st.status = FAIL_FLAG →
      (runCmdList cfg sh true container cmds (okResults rs) prc lmm st).1 =
        .ok ((retCodes rs).foldl max prc,
             (sampledMems sh container cmds rs).foldl max lmm) ∧
      (runCmdList cfg sh true container cmds (okResults rs) prc lmm st).2.1.spawned =
        st.spawned ++ cmds.map (wrapCmd container) ∧
      (runCmdList cfg sh true container cmds (okResults rs) prc lmm st).2.1.status =
        st.status ∧
      (runCmdList cfg sh true container cmds (okResults rs) prc lmm st).2.1.fs =
        st.fs ∧
      (runCmdList cfg sh true container cmds (okResults rs) prc lmm st).2.1.locks =
        st.locks ∧
      (runCmdList cfg sh true container cmds (okResults rs) prc lmm st).2.1.followCalls =
        st.followCalls ∧
      (runCmdList cfg sh true container cmds (okResults rs) prc lmm st).2.1.peak_memory =
        (sampledMems sh container cmds rs).foldl max st.peak_memory := by
  intro cmds
  induction cmds with
  | nil =>
    intro rs prc lmm st hlen _
    have hrs : rs = [] := List.length_eq_zero.mp (by simpa using hlen)
    subst hrs
    simp [runCmdList, okResults, retCodes, sampledMems]
  | cons c cs ih =>
    intro rs prc lmm st hlen hst
    cases rs with
    | nil => simp at hlen
    | cons q qs =>
      have hq : okResults (q :: qs) =
          .ok q.1 q.2.1 q.2.2.1 q.2.2.2 :: okResults qs := rfl
      simp only [runCmdList, hq, List.headD_cons, List.tail_cons]
      rw [callprint_ok_spec cfg c sh container none q.1 q.2.1 q.2.2.1 q.2.2.2 st
        hwait hst]
      obtain ⟨ih1, ih2, ih3, ih4, ih5, ih6, ih7⟩ :=
        ih qs (max prc q.2.1)
          (max lmm (if resolved_shell sh (wrapCmd container c) then -1
            else max (-1) q.2.2.1))
          { st with
            commands := st.commands ++ [wrapCmd container c],
            procs := (st.procs ++
              [(q.1, ProcEntry.mk (headToken (wrapCmd container c)) container
                q.2.2.2 q.2.2.1)]).filter (fun p => p.1 ≠ q.1),
            spawned := st.spawned ++ [wrapCmd container c],
            peak_memory := max st.peak_memory
              (if resolved_shell sh (wrapCmd container c) then -1
               else max (-1) q.2.2.1),
            profile := st.profile ++
              [ProfileRow.mk (headToken (wrapCmd container c)) none q.2.2.2
                (if resolved_shell sh (wrapCmd container c) then -1
                 else max (-1) q.2.2.1)] }
          (by simpa using hlen) (by simpa using hst)
      refine ⟨?_, ?_, ih3, ih4, ih5, ih6, ih7⟩
      · rw [ih1]
        rfl
      · rw [ih2]
        simp

/-! ## Projection lemmas for `cleanup_dry` and `set_status_flag` -/

theorem cleanup_dry_cleanup_list (st : RState) :
    (cleanup_dry st).cleanup_list = [] := by
  unfold cleanup_dry
  split
  · next h => exact List.isEmpty_iff.mp h
  · rfl

theorem cleanup_dry_cond (st : RState) :
    (cleanup_dry st).cleanup_list_conditional =
      st.cleanup_list_conditional ++ st.cleanup_list := by
  unfold cleanup_dry
  split
  · next h => rw [List.isEmpty_iff.mp h]; simp
  · rfl

theorem cleanup_dry_fs (st : RState) : (cleanup_dry st).fs = st.fs := by
  unfold cleanup_dry; split <;> rfl

theorem cleanup_dry_status (st : RState) : (cleanup_dry st).status = st.status := by
  unfold cleanup_dry; split <;> rfl

theorem cleanup_dry_locks (st : RState) : (cleanup_dry st).locks = st.locks := by
  unfold cleanup_dry; split <;> rfl

theorem cleanup_dry_procs (st : RState) : (cleanup_dry st).procs = st.procs := by
  unfold cleanup_dry; split <;> rfl

theorem set_status_flag_fs (cfg : Config) (new : String) (st : RState) :
    (set_status_flag cfg new st).fs =
      create_file (eraseStr st.fs (flag_file_path cfg st.status))
        (flag_file_path cfg new) := rfl

/-! ## Lemmas about `fail_pipeline` with `dynamic_recover = False` -/

theorem fail_pipeline_false_eq (cfg : Config) (e : Exn) (st : RState) :
    fail_pipeline cfg e false st =
      (e,
        let st := cleanup_dry (terminate_subprocs st)
        if st.status = FAIL_FLAG then st else set_status_flag cfg FAIL_FLAG st) := by
  rfl

theorem fail_pipeline_false_fst (cfg : Config) (e : Exn) (st : RState) :
    (fail_pipeline cfg e false st).1 = e := by
  rw [fail_pipeline_false_eq]

theorem fail_pipeline_false_status (cfg : Config) (e : Exn) (st : RState) :
    (fail_pipeline cfg e false st).2.status = FAIL_FLAG := by
  rw [fail_pipeline_false_eq]
  simp only
  split
  · next h => simpa [cleanup_dry, terminate_subprocs] using h
  · simp [set_status_flag]

theorem fail_pipeline_false_locks (cfg : Config) (e : Exn) (st : RState) :
    (fail_pipeline cfg e false st).2.locks = st.locks := by
  rw [fail_pipeline_false_eq]
  simp only
  split <;> simp [cleanup_dry, terminate_subprocs, set_status_flag] <;> split <;> simp

theorem fail_pipeline_false_procs (cfg : Config) (e : Exn) (st : RState) :
    (fail_pipeline cfg e false st).2.procs = [] := by
  rw [fail_pipeline_false_eq]
  simp only
  split <;> simp [cleanup_dry, terminate_subprocs, set_status_flag] <;> split <;> simp

theorem fail_pipeline_false_cleanup_list (cfg : Config) (e : Exn) (st : RState) :
    (fail_pipeline cfg e false st).2.cleanup_list = [] := by
  rw [fail_pipeline_false_eq]
  simp only
  split <;> simp [cleanup_dry, terminate_subprocs, set_status_flag] <;>
    split <;> simp_all [List.isEmpty_iff]

theorem fail_pipeline_false_cleanup_cond (cfg : Config) (e : Exn) (st : RState) :
    (fail_pipeline cfg e false st).2.cleanup_list_conditional =
      st.cleanup_list_conditional ++ st.cleanup_list := by
  rw [fail_pipeline_false_eq]
  simp only
  split <;> simp [cleanup_dry, terminate_subprocs, set_status_flag] <;>
    split <;> simp_all [List.isEmpty_iff]

/-- The execute stage on a single command that exits 0, when the lock file
is absent (the C10 scenario): the command is spawned, the filesystem is left
unchanged, and the final `os.remove(lock_file)` raises `ENOENT`. -/
theorem runExec_single_zero_noLock (cfg : Config) (a : RunArgs)
    (targetN : Option String) (lock_file : String) (prc lmm : Int)
    (pid : Nat) (mem el : Int) (c : String) (st : RState)
    (hcmd : a.cmd = .single c) (hwait : cfg.wait = true)
    (hlk : hasStr st.fs lock_file = false) :
    (runExec cfg a targetN lock_file prc lmm [.ok pid 0 mem el] st).1 =
      .error (.osErr eNOENT) ∧
    (runExec cfg a targetN lock_file prc lmm [.ok pid 0 mem el] st).2.spawned =
      st.spawned ++ [wrapCmd a.container c] ∧
    (runExec cfg a targetN lock_file prc lmm [.ok pid 0 mem el] st).2.fs =
      st.fs := by
  cases hcl : (targetN.isSome && a.clean) with
  | true =>
    unfold runExec
    rw [hcmd]
    simp only [List.headD_cons, List.tail_cons]
    rw [callprint_zero_spec cfg c a.shell a.nofail a.container none pid mem el st
      hwait]
    split
    · next heq => exact absurd heq (by simp)
    · next rm st2 rest heq =>
      simp only [Prod.mk.injEq, Except.ok.injEq] at heq
      obtain ⟨hrm, hst2, hrest⟩ := heq
      subst hst2
      rw [hcl]
      rw [if_pos rfl]
      rw [os_remove_absent _ _
        (by rw [call_follow_fs, clean_add_fs]; exact hlk)]
      refine ⟨rfl, ?_, ?_⟩
      · rw [call_follow_spawned, clean_add_spawned]
      · rw [call_follow_fs, clean_add_fs]
  | false =>
    unfold runExec
    rw [hcmd]
    simp only [List.headD_cons, List.tail_cons]
    rw [callprint_zero_spec cfg c a.shell a.nofail a.container none pid mem el st
      hwait]
    split
    · next heq => exact absurd heq (by simp)
    · next rm st2 rest heq =>
      simp only [Prod.mk.injEq, Except.ok.injEq] at heq
      obtain ⟨hrm, hst2, hrest⟩ := heq
      subst hst2
      rw [hcl]
      rw [if_neg (by simp)]
      rw [os_remove_absent _ _ (by rw [call_follow_fs]; exact hlk)]
      refine ⟨rfl, ?_, ?_⟩
      · rw [call_follow_spawned]
      · rw [call_follow_fs]

/-! # Claims -/

/-- C6: every call to `run` in which both `target` and `lock_name` are `None`
fails the pipeline fatally — `run` raises instead of returning, and the
pipeline status becomes `failed` — for all values of the other arguments. -/
theorem C6_missing_target_and_lock_fails (cfg : Config) (a : RunArgs)
    (fuel : Nat) (envs : List EnvIter) (results : List ProcResult) (st : RState)
    (h1 : a.target = none) (h2 : a.lock_name = none) :
    (run cfg a fuel envs results st).1 = .error .argErr ∧
    (run cfg a fuel envs results st).2.status = FAIL_FLAG := by
  unfold run
  rw [h1, h2]
  simp only [Option.isNone_none, Bool.and_self, if_true]
  exact ⟨by rw [fail_pipeline_false_fst], fail_pipeline_false_status cfg _ st⟩

/-- Witness for C6 at a concrete call. -/
theorem C6_witness :
    (run exCfg exA6 1 [] [] exSt).1 = .error .argErr ∧
    (run exCfg exA6 1 [] [] exSt).2.status = FAIL_FLAG :=
  C6_missing_target_and_lock_fails exCfg exA6 1 [] [] exSt rfl rfl

/-- C2: whenever a checkpoint (name or filename) is given, some candidate
checkpoint file exists, and neither the manager-wide `overwrite_checkpoints`
nor the per-call `overwrite_checkpoint` flag is set, `run` returns 0 with the
state completely untouched: no child is spawned and the lock file is never
written.  (The target/lock precondition must hold, or `run` raises before
reaching the checkpoint test.) -/
theorem C2_checkpoint_short_circuit (cfg : Config) (a : RunArgs) (fuel : Nat)
    (envs : List EnvIter) (results : List ProcResult) (st : RState)
    (hpre : (a.target.isNone && a.lock_name.isNone) = false)
    (hck : ∃ n ∈ check_names a,
      hasStr st.fs (pipeline_filepath cfg.outfolder n) = true)
    (how1 : cfg.overwrite_checkpoints = false)
    (how2 : a.overwrite_checkpoint = false) :
    run cfg a fuel envs results st = (.ok 0, st) := by
  unfold run
  rw [hpre]
  simp only [Bool.false_eq_true, if_false]
  cases hfe : firstExisting st.fs
      ((check_names a).map (pipeline_filepath cfg.outfolder)) with
  | none =>
    exfalso
    obtain ⟨n, hn, hhas⟩ := hck
    have h0 := firstExisting_eq_none _ _ hfe (pipeline_filepath cfg.outfolder n)
      (List.mem_map_of_mem _ hn)
    rw [h0] at hhas
    exact Bool.false_ne_true hhas
  | some p =>
    simp [how1, how2]

/-- Witness for C2: checkpoint file `c.checkpoint` exists in the output
folder and the call returns 0 leaving the state unchanged. -/
theorem C2_witness : run exCfg exA2 1 [] [] exStCk = (.ok 0, exStCk) :=
  C2_checkpoint_short_circuit exCfg exA2 1 [] [] exStCk (by decide)
    ⟨"c.checkpoint", by decide, by decide⟩ rfl rfl

/-- C4 (code bug): the spec's invariant — `locks` membership mirrors the live
lock files this process created, in particular a lost exclusive-creation race
must not leave the lock path in `locks` — fails on the code.  `run` appends
the lock path to `self.locks` *before* `_create_file_racefree` and the
`EEXIST` handler restarts the loop without removing it.  Evaluated at the
failing input (race environment `exEnv4`): the call returns 0 without
spawning anything, yet `locks` still holds `/o/lock.t` although no such file
exists. -/
theorem C4_race_leaves_stale_lock_entry :
    exOut4.1 = .ok 0 ∧
    exOut4.2.locks = ["/o/lock.t"] ∧
    hasStr exOut4.2.fs "/o/lock.t" = false ∧
    exOut4.2.spawned = [] :=
  ⟨rfl, by decide, by decide, by decide⟩

/-- C8 (code bug): during a `run` call, exactly one profile row is appended
per reaped child and it has four tab-separated columns, but the lock-name
column is the string `None` — `run` invokes `callprint(cmd, shell, nofail,
container)` without forwarding its lock name, so `callprint`'s `lock_name`
default `None` reaches `_report_profile` — rather than the name of the lock
held for the call (`/o/lock.t` here).  (Columns 2 and 4 also carry a leading
space after the tab, from the `"\t "` separators in `_report_profile`.) -/
theorem C8_profile_row_lock_is_none :
    exOut8.1 = .ok 0 ∧
    exOut8.2.profile = [exRow8] ∧
    exRow8.lock_name = none ∧
    tabColumns (profileLine exRow8) = ["echo", " None", "5", " 3"] :=
  ⟨rfl, by decide, rfl, by decide⟩

/-- C9 (counterexample): the direct-process memory sampler *does* raise when
`/proc/<pid>/status` is absent — `_memory_usage` wraps the read in
`try/finally` with no `except`, so the `open` failure propagates to the
caller, contradicting the claim that it never propagates a file-access
error. -/
theorem C9_counterexample :
    memory_usage_direct none .hwm = .error (.osErr eNOENT) := rfl

/-- C9 (amended): `_memory_usage` without a container propagates the
file-open error when the status file is absent (the `try/finally` only
guarantees the handle is closed); when the file is readable it always
returns a sampled value and raises nothing. -/
theorem C9_memory_usage_amended :
    (∀ (lines : List (String × Int)) (cat : MemCat),
      ∃ v : Int, memory_usage_direct (some lines) cat = .ok v) ∧
    (∀ cat : MemCat, memory_usage_direct none cat = .error (.osErr eNOENT)) := by
  constructor
  · intro lines cat
    cases cat <;> exact ⟨_, rfl⟩
  · intro cat
    rfl

/-- C5 (counterexample): `_recoverfile_from_lockfile` rewrites directory
components too.  With the (legal) output folder `/data/lock.dir/`, the lock
path of target `t` is `/data/lock.dir/lock.t`, and the source's
`lockfile.replace(LOCK_PREFIX, "recover." + LOCK_PREFIX)` rewrites *every*
occurrence of `lock.`, yielding `/data/recover.lock.dir/recover.lock.t` —
not the claimed filename-only substitution
`/data/lock.dir/recover.lock.t`. -/
theorem C5_counterexample :
    recoverfile_from_lockfile exCfgLockDir "/data/lock.dir/lock.t" =
      "/data/recover.lock.dir/recover.lock.t" ∧
    ("/data/recover.lock.dir/recover.lock.t" : String) ≠
      "/data/lock.dir/recover.lock.t" :=
  ⟨by decide, by decide⟩

/-- C5 (amended): the recovery path substitutes `recover.lock.` for *every*
occurrence of `lock.` throughout the lock path (Python `str.replace`); when
the only occurrence of `lock.` in the whole path is the filename's `lock.`
designation — the case for every well-behaved output folder and target
name — this coincides with substituting the prefix on the filename component
and leaves the directory part unchanged. -/
theorem C5_recover_path_amended (cfg : Config) (dir nm : String)
    (habs : (os_isabs (dir ++ LOCK_MARK ++ nm) ||
      pyStartsWith (dir ++ LOCK_MARK ++ nm) cfg.outfolder) = true)
    (hd : ∀ i, i < dir.data.length →
      ¬ (LOCK_MARK.data).isPrefixOf
        ((dir.data ++ LOCK_MARK.data ++ nm.data).drop i) = true)
    (hn : hasOcc LOCK_MARK.data nm.data = false) :
    recoverfile_from_lockfile cfg (dir ++ LOCK_MARK ++ nm) =
      dir ++ "recover." ++ LOCK_MARK ++ nm := by
  unfold recoverfile_from_lockfile
  rw [if_pos habs]
  apply String.ext
  show replaceAll LOCK_MARK.data ("recover." ++ LOCK_MARK).data
      (dir ++ LOCK_MARK ++ nm).data = _
  rw [show (dir ++ LOCK_MARK ++ nm).data =
    dir.data ++ LOCK_MARK.data ++ nm.data by simp [String.data_append]]
  rw [replaceAll_boundary _ _ (by decide) dir.data nm.data hd]
  rw [replaceAll_of_not_hasOcc _ _ _ hn]
  simp [String.data_append, List.append_assoc]

/-- Witness for C5's amended statement: an ordinary folder and target. -/
theorem C5_witness :
    recoverfile_from_lockfile exCfg ("/o/" ++ LOCK_MARK ++ "t.txt") =
      "/o/" ++ "recover." ++ LOCK_MARK ++ "t.txt" :=
  C5_recover_path_amended exCfg "/o/" "t.txt" (by decide) (by decide)
    (by decide)

/-- C3 (counterexample): `fail_pipeline` writes recovery files and clears the
lock set only on the `dynamic_recover` (signal) path, and it checks only for
an already-`failed` status, not for any terminal status.  At this failing
input — an error reaching `fail_pipeline` with the default
`dynamic_recover=False` while a lock is held and the status is the terminal
`completed` — no recovery file is written, the lock set is not cleared, and
the status is still advanced to `failed`. -/
theorem C3_counterexample :
    (fail_pipeline exCfg .procErr false exStC3).1 = .procErr ∧
    (fail_pipeline exCfg .procErr false exStC3).2.locks = ["/o/lock.t"] ∧
    hasStr (fail_pipeline exCfg .procErr false exStC3).2.fs
      "/o/recover.lock.t" = false ∧
    exStC3.status = COMPLETE_FLAG ∧
    (fail_pipeline exCfg .procErr false exStC3).2.status = FAIL_FLAG :=
  ⟨rfl, by decide, by decide, rfl, by decide⟩

/-- C3 (amended): for every error that reaches `fail_pipeline`,
`fail_pipeline` terminates live children, invokes the cleanup routine in
dry-run mode (folding the unconditional cleanup entries into the conditional
list and deleting nothing), advances the status to `failed` unless it is
already `failed` (an already-`completed` or `paused` status is still
overwritten), and reraises the originating exception; recovery files are
written for the held locks — and the lock set cleared — only when
`dynamic_recover` is set (the signal path), assuming the derived recovery
paths are distinct, fresh, and do not collide with the current status flag
file. -/
theorem C3_fail_pipeline_amended (cfg : Config) (e : Exn) (dyn : Bool)
    (st : RState)
    (hnd : ((st.locks.map (recoverfile_from_lockfile cfg)).Nodup))
    (hfresh : ∀ l ∈ st.locks,
      hasStr st.fs (recoverfile_from_lockfile cfg l) = false)
    (hne : ∀ l ∈ st.locks,
      recoverfile_from_lockfile cfg l ≠ flag_file_path cfg st.status) :
    (fail_pipeline cfg e dyn st).1 = e ∧
    (fail_pipeline cfg e dyn st).2.procs = [] ∧
    (fail_pipeline cfg e dyn st).2.status = FAIL_FLAG ∧
    (fail_pipeline cfg e dyn st).2.cleanup_list = [] ∧
    (fail_pipeline cfg e dyn st).2.cleanup_list_conditional =
      st.cleanup_list_conditional ++ st.cleanup_list ∧
    (dyn = true → (fail_pipeline cfg e dyn st).2.locks = [] ∧
      ∀ l ∈ st.locks, hasStr (fail_pipeline cfg e dyn st).2.fs
        (recoverfile_from_lockfile cfg l) = true) ∧
    (dyn = false → (fail_pipeline cfg e dyn st).2.locks = st.locks) := by
  cases dyn with
  | false =>
    refine ⟨fail_pipeline_false_fst cfg e st, fail_pipeline_false_procs cfg e st,
      fail_pipeline_false_status cfg e st,
      fail_pipeline_false_cleanup_list cfg e st,
      fail_pipeline_false_cleanup_cond cfg e st, ?_, ?_⟩
    · intro h; exact absurd h (by simp)
    · intro _; exact fail_pipeline_false_locks cfg e st
  | true =>
    have hst1 : terminate_subprocs st =
        { st with
          profile := st.profile ++ st.procs.map
            (fun q => ProfileRow.mk q.2.proc_name none q.2.elapsed q.2.mem),
          killed := st.killed ++ st.procs.map (fun q => q.1),
          procs := [] } := rfl
    obtain ⟨s1, s2, s3, s4, s5, s6, s7⟩ :=
      setRecFold_spec cfg (terminate_subprocs st).locks (terminate_subprocs st)
        rfl (by rw [hst1]; exact hnd) (by rw [hst1]; exact hfresh)
    rcases hsr : setRecFold cfg (terminate_subprocs st).locks
        (terminate_subprocs st) with ⟨o, st2⟩
    rw [hsr] at s1 s2 s3 s4 s5 s6 s7
    simp only at s1 s2 s3 s4 s5 s6 s7
    subst s1
    have hfp : fail_pipeline cfg e true st =
        (e,
          let st3 := cleanup_dry st2
          if st3.status = FAIL_FLAG then st3
          else set_status_flag cfg FAIL_FLAG st3) := by
      unfold fail_pipeline
      simp only [eq_self_iff_true, if_true]
      rw [hsr]
    have hfp1 : (fail_pipeline cfg e true st).1 = e := by rw [hfp]
    have hfp2 : (fail_pipeline cfg e true st).2 =
        (if (cleanup_dry st2).status = FAIL_FLAG then cleanup_dry st2
         else set_status_flag cfg FAIL_FLAG (cleanup_dry st2)) := by rw [hfp]
    have hs2status : st2.status = st.status := by rw [s5, hst1]
    have hs2procs : st2.procs = [] := by rw [s4, hst1]
    have hs2list : st2.cleanup_list = st.cleanup_list := by rw [s6, hst1]
    have hs2cond : st2.cleanup_list_conditional = st.cleanup_list_conditional := by
      rw [s7, hst1]
    refine ⟨hfp1, ?_, ?_, ?_, ?_, ?_, ?_⟩
    · rw [hfp2]
      split
      · rw [cleanup_dry_procs, hs2procs]
      · show (set_status_flag cfg FAIL_FLAG (cleanup_dry st2)).procs = []
        rw [show ∀ s : RState, (set_status_flag cfg FAIL_FLAG s).procs = s.procs
          from fun _ => rfl]
        rw [cleanup_dry_procs, hs2procs]
    · rw [hfp2]
      split
      · next h => exact h
      · rfl
    · rw [hfp2]
      split
      · rw [cleanup_dry_cleanup_list]
      · show (set_status_flag cfg FAIL_FLAG (cleanup_dry st2)).cleanup_list = []
        rw [show ∀ s : RState,
          (set_status_flag cfg FAIL_FLAG s).cleanup_list = s.cleanup_list
          from fun _ => rfl]
        rw [cleanup_dry_cleanup_list]
    · rw [hfp2]
      split
      · rw [cleanup_dry_cond, hs2cond, hs2list]
      · show (set_status_flag cfg FAIL_FLAG
            (cleanup_dry st2)).cleanup_list_conditional = _
        rw [show ∀ s : RState,
          (set_status_flag cfg FAIL_FLAG s).cleanup_list_conditional =
            s.cleanup_list_conditional from fun _ => rfl]
        rw [cleanup_dry_cond, hs2cond, hs2list]
    · intro _
      constructor
      · rw [hfp2]
        split
        · rw [cleanup_dry_locks, s2]
        · show (set_status_flag cfg FAIL_FLAG (cleanup_dry st2)).locks = []
          rw [show ∀ s : RState, (set_status_flag cfg FAIL_FLAG s).locks = s.locks
            from fun _ => rfl]
          rw [cleanup_dry_locks, s2]
      · intro l hl
        have hrec : hasStr st2.fs (recoverfile_from_lockfile cfg l) = true :=
          s3 l (by rw [hst1]; exact hl)
        rw [hfp2]
        split
        · rw [cleanup_dry_fs]; exact hrec
        · show hasStr (set_status_flag cfg FAIL_FLAG (cleanup_dry st2)).fs
            (recoverfile_from_lockfile cfg l) = true
          rw [set_status_flag_fs]
          apply hasStr_create_file
          rw [cleanup_dry_fs, cleanup_dry_status]
          rw [hasStr_eraseStr_ne _ _ (by rw [hs2status]; exact hne l hl)]
          exact hrec
    · intro h; exact absurd h (by simp)

/-- Witness for C3 on the signal path: `dynamic_recover = True` with one held
lock creates its recovery file, clears the lock set, sets `failed`, and
reraises. -/
theorem C3_witness :
    (fail_pipeline exCfg .procErr true exStC3w).1 = .procErr ∧
    (fail_pipeline exCfg .procErr true exStC3w).2.procs = [] ∧
    (fail_pipeline exCfg .procErr true exStC3w).2.status = FAIL_FLAG ∧
    (fail_pipeline exCfg .procErr true exStC3w).2.cleanup_list = [] ∧
    (fail_pipeline exCfg .procErr true exStC3w).2.cleanup_list_conditional =
      exStC3w.cleanup_list_conditional ++ exStC3w.cleanup_list ∧
    (true = true → (fail_pipeline exCfg .procErr true exStC3w).2.locks = [] ∧
      ∀ l ∈ exStC3w.locks, hasStr (fail_pipeline exCfg .procErr true exStC3w).2.fs
        (recoverfile_from_lockfile exCfg l) = true) ∧
    (true = false → (fail_pipeline exCfg .procErr true exStC3w).2.locks =
      exStC3w.locks) :=
  C3_fail_pipeline_amended exCfg .procErr true exStC3w (by decide) (by decide)
    (by decide)

/-- C1: for a `run` call with a target given (and no checkpoint argument, so
the earlier checkpoint short-circuit cannot preempt the retry loop), if the
target path exists on disk and no lock file for it exists, `run` skips
execution — it spawns no child and registers no process — returns 0, and
invokes the supplied callable follow-up if and only if `force_follow` is
set. -/
theorem C1_target_exists_skip (cfg : Config) (a : RunArgs) (fuel : Nat)
    (envs : List EnvIter) (results : List ProcResult) (st : RState) (t : String)
    (hcp : a.checkpoint = none) (hcpf : a.checkpoint_filename = none)
    (ht : norm_target a = some t)
    (hex : hasStr st.fs t = true)
    (hlk : hasStr st.fs (run_lock_path cfg a) = false)
    (hfol : a.follow = .callable) :
    (run cfg a (fuel + 1) envs results st).1 = .ok 0 ∧
    (run cfg a (fuel + 1) envs results st).2.spawned = st.spawned ∧
    (run cfg a (fuel + 1) envs results st).2.procs = st.procs ∧
    ((run cfg a (fuel + 1) envs results st).2.followCalls = st.followCalls + 1 ↔
      cfg.force_follow = true) := by
  have htg : a.target.isNone = false := by
    cases hta : a.target with
    | none => exact absurd ht (by simp [norm_target, hta])
    | some _ => rfl
  have hnames : check_names a = [] := by
    simp [check_names, hcp, hcpf]
  have hrun : run cfg a (fuel + 1) envs results st =
      (.ok 0, if cfg.force_follow then call_follow a.follow st else st) := by
    unfold run
    rw [htg]
    simp only [Bool.false_and, Bool.false_eq_true, if_false, hnames,
      List.map_nil]
    show run.runMain cfg a (fuel + 1) envs results st = _
    unfold run.runMain
    unfold runLoop
    rw [ht]
    simp only [Option.isSome_some, Bool.true_and, hex, hlk, Bool.not_false,
      Bool.and_self, if_true, Option.getD_some]
  rw [hrun]
  cases hff : cfg.force_follow with
  | true =>
    rw [hfol]
    refine ⟨rfl, rfl, rfl, ?_⟩
    simp [call_follow]
  | false =>
    refine ⟨rfl, rfl, rfl, ?_⟩
    simp

/-- Witness for C1 with `force_follow` enabled: the skip still runs the
follow-up exactly once. -/
theorem C1_witness :
    (run exCfgFF exA1 1 [] [] exSt1).1 = .ok 0 ∧
    (run exCfgFF exA1 1 [] [] exSt1).2.spawned = exSt1.spawned ∧
    (run exCfgFF exA1 1 [] [] exSt1).2.procs = exSt1.procs ∧
    ((run exCfgFF exA1 1 [] [] exSt1).2.followCalls = exSt1.followCalls + 1 ↔
      exCfgFF.force_follow = true) :=
  C1_target_exists_skip exCfgFF exA1 0 [] [] exSt1 "t" rfl rfl rfl (by decide)
    (by decide) rfl

/-- C10 (implicit behaviour of the source): in `run`'s lock-acquisition
block, when the exclusive creation of the lock file raises an `OSError`
whose errno is not `EEXIST` (for example `EACCES`), the `except OSError`
handler tests only for `EEXIST` and otherwise falls through, so the error is
silently swallowed and the command is executed anyway even though no lock
file was created for this process.  (The subsequent `os.remove(lock_file)`
then raises `ENOENT`, which is what the call finally returns.) -/
theorem C10_swallowed_oserror (cfg : Config) (a : RunArgs) (fuel : Nat)
    (envs : List EnvIter) (st : RState) (t c : String) (pid : Nat)
    (mem el : Int) (errno : Nat)
    (hcp : a.checkpoint = none) (hcpf : a.checkpoint_filename = none)
    (hcmd : a.cmd = .single c)
    (htg : a.target = some (.tstr t))
    (hter : hasStr st.fs t = false)
    (hlk : hasStr st.fs (run_lock_path cfg a) = false)
    (hov : cfg.overwrite_locks = false)
    (henv : envs.headD {} = ⟨[], some errno, []⟩)
    (herr : ¬ errno = eEXIST)
    (hwait : cfg.wait = true) :
    (run cfg a (fuel + 1) envs [.ok pid 0 mem el] st).2.spawned =
      st.spawned ++ [wrapCmd a.container c] ∧
    hasStr (run cfg a (fuel + 1) envs [.ok pid 0 mem el] st).2.fs
      (run_lock_path cfg a) = false ∧
    (run cfg a (fuel + 1) envs [.ok pid 0 mem el] st).1 =
      .error (.osErr eNOENT) := by
  have htg' : norm_target a = some t := by simp [norm_target, htg]
  have htgisnone : a.target.isNone = false := by rw [htg]; rfl
  have hnames : check_names a = [] := by simp [check_names, hcp, hcpf]
  have hred : run cfg a (fuel + 1) envs [.ok pid 0 mem el] st =
      runExec cfg a (some t) (run_lock_path cfg a) 0 0 [.ok pid 0 mem el]
        { st with locks := st.locks ++ [run_lock_path cfg a] } := by
    unfold run
    rw [htgisnone]
    simp only [Bool.false_and, Bool.false_eq_true, if_false, hnames,
      List.map_nil]
    show run.runMain cfg a (fuel + 1) envs [.ok pid 0 mem el] st = _
    unfold run.runMain
    unfold runLoop
    rw [htg']
    simp only [Option.isSome_some, Bool.true_and, Option.getD_some, hter,
      Bool.false_and, Bool.false_eq_true, if_false, hlk]
    unfold runAcquire
    rw [henv]
    rw [hov]
    simp only [Bool.or_false, Bool.false_eq_true, if_false]
    simp only [applyOps, List.foldl_nil, hlk, if_false]
    rw [if_neg herr]
    simp
  rw [hred]
  obtain ⟨e1, e2, e3⟩ := runExec_single_zero_noLock cfg a (some t)
    (run_lock_path cfg a) 0 0 pid mem el c
    { st with locks := st.locks ++ [run_lock_path cfg a] } hcmd hwait hlk
  refine ⟨by rw [e2], by rw [e3]; exact hlk, e1⟩

/-- Witness for C10: an `EACCES` fault on the exclusive create is swallowed;
the command still runs and the final lock removal raises `ENOENT`. -/
theorem C10_witness :
    (run exCfg exA10 1 [⟨[], some eACCES, []⟩] [.ok 3 0 0 0] exSt).2.spawned =
      exSt.spawned ++ [wrapCmd exA10.container "x"] ∧
    hasStr (run exCfg exA10 1 [⟨[], some eACCES, []⟩] [.ok 3 0 0 0] exSt).2.fs
      (run_lock_path exCfg exA10) = false ∧
    (run exCfg exA10 1 [⟨[], some eACCES, []⟩] [.ok 3 0 0 0] exSt).1 =
      .error (.osErr eNOENT) :=
  C10_swallowed_oserror exCfg exA10 0 [⟨[], some eACCES, []⟩] exSt "t" "x" 3 0 0
    eACCES rfl rfl rfl rfl (by decide) (by decide) rfl rfl (by decide) rfl

/-- C7 (counterexample): `run` does not return the maximum of the individual
return codes when that maximum is negative.  With `nofail=True` and a single
command whose `Popen` raises (command not found), the supervisor's return
code for the command is `-1`: passed as a one-element *list*, `run` returns
`max(0, -1) = 0` (the aggregation starts from `process_return_code = 0`),
while the same command passed as a single *string* returns `-1`. -/
theorem C7_counterexample :
    (run exCfg exA7l 1 [{}] [.spawnFail] exSt).1 = .ok 0 ∧
    (run exCfg exA7s 1 [{}] [.spawnFail] exSt).1 = .ok (-1) ∧
    (0 : Int) ≠ -1 :=
  ⟨rfl, rfl, by decide⟩

/-- C7 (amended): for a `run` call whose `cmd` is a list, the commands are
executed sequentially in list order (each spawned child appears in order);
the value returned by `run` is the maximum of 0 and the individual return
codes (`process_return_code` starts at 0, so negative codes are masked); and
the per-command sampled memories enter the pipeline's `peak_memory` through
successive `max` updates (likewise floored by earlier values, with `-1` for
shell-mode commands).  Stated for the execute path under `nofail` with every
child spawning. -/
theorem C7_list_aggregation_amended (cfg : Config) (a : RunArgs) (fuel : Nat)
    (envs : List EnvIter) (st : RState) (nm : String) (cmds : List String)
    (rs : List (Nat × Int × Int × Int))
    (hcp : a.checkpoint = none) (hcpf : a.checkpoint_filename = none)
    (hcmd : a.cmd = .cmds cmds)
    (htg : a.target = none)
    (hln : a.lock_name = some nm)
    (hlen : rs.length = cmds.length)
    (hov : cfg.overwrite_locks = false)
    (hwait : cfg.wait = true)
    (hnf : a.nofail = true)
    (hst : ¬ st.status = FAIL_FLAG)
    (hlk : hasStr st.fs (run_lock_path cfg a) = false)
    (henv : envs.headD {} = {}) :
    (run cfg a (fuel + 1) envs (okResults rs) st).1 =
      .ok ((retCodes rs).foldl max 0) ∧
    (run cfg a (fuel + 1) envs (okResults rs) st).2.spawned =
      st.spawned ++ cmds.map (wrapCmd a.container) ∧
    (run cfg a (fuel + 1) envs (okResults rs) st).2.peak_memory =
      (sampledMems a.shell a.container cmds rs).foldl max st.peak_memory := by
  have hnames : check_names a = [] := by simp [check_names, hcp, hcpf]
  have hred : run cfg a (fuel + 1) envs (okResults rs) st =
      runExec cfg a none (run_lock_path cfg a) 0 0 (okResults rs)
        { st with locks := st.locks ++ [run_lock_path cfg a],
                  fs := st.fs ++ [run_lock_path cfg a] } := by
    unfold run
    simp only [htg, hln, Option.isNone_none, Option.isNone_some, Bool.and_false,
      Bool.false_eq_true, if_false, hnames, List.map_nil]
    show run.runMain cfg a (fuel + 1) envs (okResults rs) st = _
    unfold run.runMain
    unfold runLoop
    rw [show norm_target a = none from by simp [norm_target, htg]]
    simp only [Option.isSome_none, Bool.false_and, Bool.false_eq_true, if_false,
      hlk]
    unfold runAcquire
    rw [henv]
    rw [hov]
    simp only [Bool.or_false, Bool.false_eq_true, if_false]
    simp only [applyOps, List.foldl_nil, hlk, if_false]
    simp
  rw [hred]
  unfold runExec
  rw [hcmd, hnf]
  obtain ⟨r1, r2, r3, r4, r5, r6, r7⟩ :=
    runCmdList_ok_spec cfg a.shell a.container hwait cmds rs 0 0
      { st with locks := st.locks ++ [run_lock_path cfg a],
                fs := st.fs ++ [run_lock_path cfg a] } hlen hst
  rcases hrc : runCmdList cfg a.shell true a.container cmds (okResults rs) 0 0
      { st with locks := st.locks ++ [run_lock_path cfg a],
                fs := st.fs ++ [run_lock_path cfg a] } with ⟨res, stF, rest⟩
  rw [hrc] at r1 r2 r3 r4 r5 r6 r7
  simp only at r1 r2 r3 r4 r5 r6 r7
  subst r1
  simp only [hrc]
  simp only [Option.isSome_none, Bool.false_and, Bool.false_eq_true, if_false]
  rw [os_remove_present _ _ (by
    rw [call_follow_fs, r4]
    exact hasStr_append_self st.fs (run_lock_path cfg a))]
  refine ⟨rfl, ?_, ?_⟩
  · show (call_follow a.follow stF).spawned =
      st.spawned ++ cmds.map (wrapCmd a.container)
    rw [call_follow_spawned, r2]
  · show (call_follow a.follow stF).peak_memory =
      (sampledMems a.shell a.container cmds rs).foldl max st.peak_memory
    rw [call_follow_peak, r7]

/-- Witness for C7 at a concrete two-command list: codes 2 and 3 aggregate
to 3, and the children spawn in list order. -/
theorem C7_witness :
    (run exCfg exA7w 1 [{}] (okResults [(1, 2, 0, 0), (2, 3, 0, 0)]) exSt).1 =
      .ok 3 ∧
    (run exCfg exA7w 1 [{}] (okResults [(1, 2, 0, 0), (2, 3, 0, 0)]) exSt).2.spawned =
      exSt.spawned ++ ["x", "y"].map (wrapCmd exA7w.container) ∧
    (run exCfg exA7w 1 [{}] (okResults [(1, 2, 0, 0), (2, 3, 0, 0)]) exSt).2.peak_memory =
      (sampledMems exA7w.shell exA7w.container ["x", "y"]
        [(1, 2, 0, 0), (2, 3, 0, 0)]).foldl max exSt.peak_memory :=
  C7_list_aggregation_amended exCfg exA7w 0 [{}] exSt "l" ["x", "y"]
    [(1, 2, 0, 0), (2, 3, 0, 0)] rfl rfl rfl rfl rfl rfl rfl rfl rfl
    (by decide) (by decide) rfl

end Pypiper
